import Mathlib

/-!
# Verification of the 2gis2hack occupancy system

Shallow embedding of the two algorithmic cores of the repository:

* the **occupancy ledger** (`src/backend/routers/devices.py`,
  `src/backend/routers/buses.py`, `src/backend/redis_client.py`,
  `src/backend/main.py`): a per-container membership set plus integer
  counter, with a fast count mirror and a publish log, and
* the **presence detector** (`src/priemnik/ble_iphone_counter_qt.py`):
  RSSI smoothing with outlier clamping, distance estimation, the
  two-sample hysteresis, TTL eviction, and transition reporting.

Python floats are modelled by `ℚ` (exact arithmetic); the float `10 ** x`
operation is an abstract parameter `tenPow` of the configuration; Python's
truncating `int(...)` cast on floats is `pyint`.  Python dicts (which keep
insertion order) are modelled as association lists.
-/

namespace TwoGis

/-! ## Occupancy ledger (backend)

`Bus` mirrors the SQLAlchemy model in `src/backend/models.py`: the record
keyed by `id_bus` with a JSON list `devices` of opaque payloads (type
parameter `α`), a JSON list `id_devices` of member ids, and an integer
`count`. -/

structure Bus (α : Type) where
  id_bus : String
  devices : List α
  id_devices : List String
  count : Int
deriving Repr, DecidableEq

/-- Whole backend state: the relational store (`db`), the fast count
mirror of `redis_client.py` (Redis hash or the in-memory fallback map;
both read as `0` for an unknown key), and the log of published
count-change events, in publish order. -/
structure LedgerState (α : Type) where
  db : String → Option (Bus α)
  counts : String → Int
  published : List (String × Int)

/-- The backend starts with empty tables, zero counts, nothing published. -/
def initState {α : Type} : LedgerState α :=
  { db := fun _ => none, counts := fun _ => 0, published := [] }

/-- `redis_client.get_count`: current mirrored count, `0` when absent. -/
def get_count {α : Type} (s : LedgerState α) (idb : String) : Int :=
  s.counts idb

/-- `redis_client.set_count`: store `v` and publish `{id_bus, count}`. -/
def set_count {α : Type} (s : LedgerState α) (idb : String) (v : Int) :
    LedgerState α :=
  { s with
    counts := fun k => if k = idb then v else s.counts k
    published := s.published ++ [(idb, v)] }

/-- `redis_client.incr_count`: add `amount`, publish, return the new value. -/
def incr_count {α : Type} (s : LedgerState α) (idb : String) (amount : Int) :
    LedgerState α × Int :=
  let v := s.counts idb + amount
  ({ s with
      counts := fun k => if k = idb then v else s.counts k
      published := s.published ++ [(idb, v)] }, v)

/-- `redis_client.decr_count`: subtract `amount` flooring the stored value
at `0` (both the Redis path, which re-sets a negative result to `0`, and
the fallback path do this), publish, return the new value. -/
def decr_count {α : Type} (s : LedgerState α) (idb : String) (amount : Int) :
    LedgerState α × Int :=
  let v := max 0 (s.counts idb - amount)
  ({ s with
      counts := fun k => if k = idb then v else s.counts k
      published := s.published ++ [(idb, v)] }, v)

/-- Response of `POST /devices/event` (`src/backend/routers/devices.py`). -/
structure DeviceResp where
  status : String
  message : String
  count : Int
deriving Repr, DecidableEq

/-- Lines 27–37 of `devices.py`: fetch the bus, creating it with empty
lists and count `0` when unknown.  Returns the (possibly extended) state
and the bus row the handler works on. -/
def ensure_bus {α : Type} (s : LedgerState α) (idb : String) :
    LedgerState α × Bus α :=
  match s.db idb with
  | some b => (s, b)
  | none =>
    let b : Bus α := ⟨idb, [], [], 0⟩
    ({ s with db := fun k => if k = idb then some b else s.db k }, b)

/-- The bus row after the add branch of `handle_device_event`
(`devices.py` lines 46–53): append the payload to `devices`, the device
id to `id_devices`, and bump the stored count. -/
def addedBus {α : Type} (b : Bus α) (idd : String) (data : α) : Bus α :=
  { b with
    devices := b.devices ++ [data]
    id_devices := b.id_devices ++ [idd]
    count := b.count + 1 }

/-- The bus row after the remove branch (`devices.py` lines 65–68): drop
every `id_devices` entry equal to the device id, drop every `devices`
entry equal to the *submitted* payload, floor the decrement at `0`. -/
def removedBus {α : Type} [DecidableEq α] (b : Bus α) (idd : String)
    (data : α) : Bus α :=
  { b with
    id_devices := b.id_devices.filter (fun d => d ≠ idd)
    devices := b.devices.filter (fun d => d ≠ data)
    count := max 0 (b.count - 1) }

/-- `handle_device_event` (`devices.py` lines 26–73).  `flag = true` adds
the device if absent (`addedBus`, increment the mirror); `flag = false`
removes it if present (`removedBus`, decrement the mirror).  Redundant
operations answer from the mirror without mutating. -/
def handle_device_event {α : Type} [DecidableEq α] (s : LedgerState α)
    (idb idd : String) (data : α) (flag : Bool) :
    LedgerState α × DeviceResp :=
  let sb := ensure_bus s idb
  let s1 := sb.1
  let bus := sb.2
  if flag then
    if idd ∈ bus.id_devices then
      (s1, ⟨"ok", "already present", get_count s1 idb⟩)
    else
      let b2 := addedBus bus idd data
      let s2 := { s1 with db := fun k => if k = idb then some b2 else s1.db k }
      let sv := incr_count s2 idb 1
      (sv.1, ⟨"ok", "added", sv.2⟩)
  else
    if idd ∈ bus.id_devices then
      let b2 := removedBus bus idd data
      let s2 := { s1 with db := fun k => if k = idb then some b2 else s1.db k }
      let sv := decr_count s2 idb 1
      (sv.1, ⟨"ok", "removed", sv.2⟩)
    else
      (s1, ⟨"ok", "not present", get_count s1 idb⟩)

/-- Response of `POST /buses` (`src/backend/routers/buses.py`). -/
structure CreateResp where
  status : String
  id_bus : String
  count : Int
deriving Repr, DecidableEq

/-- `create_bus` (`buses.py` lines 21–35): 409 when the bus exists,
otherwise insert the row with `int(initial_count or 0)` (Python's `or`
maps `None` to `0` and keeps every non-zero value), mirror the count and
publish it, and answer with the mirrored count. -/
def create_bus {α : Type} (s : LedgerState α) (idb : String)
    (initial : Option Int) : Except Nat (LedgerState α × CreateResp) :=
  match s.db idb with
  | some _ => .error 409
  | none =>
    let v := initial.getD 0
    let b : Bus α := ⟨idb, [], [], v⟩
    let s1 := { s with db := fun k => if k = idb then some b else s.db k }
    let s2 := set_count s1 idb v
    .ok (s2, ⟨"ok", idb, get_count s2 idb⟩)

/-- One externally driven ledger operation: an explicit container create
or a device event. -/
inductive Op (α : Type) where
  | create (idb : String) (initial : Option Int)
  | event (idb idd : String) (data : α) (flag : Bool)
deriving Repr, DecidableEq

/-- Apply one operation; a failing create (409) leaves the state as it
was (the router raises before committing anything). -/
def applyOp {α : Type} [DecidableEq α] (s : LedgerState α) : Op α → LedgerState α
  | .create idb initial =>
    match create_bus s idb initial with
    | .ok p => p.1
    | .error _ => s
  | .event idb idd data flag => (handle_device_event s idb idd data flag).1

/-- Run a sequence of operations from the empty backend state. -/
def runOps {α : Type} [DecidableEq α] (ops : List (Op α)) : LedgerState α :=
  ops.foldl applyOp initState

/-- The ledger invariant of the spec: member ids are duplicate-free, the
stored count equals their number, and it is never negative. -/
def busInv {α : Type} (b : Bus α) : Prop :=
  b.id_devices.Nodup ∧ b.count = b.id_devices.length ∧ 0 ≤ b.count

/-- Claim C1 as stated: after any sequence of creates and device events,
every stored bus satisfies the ledger invariant. -/
def ledgerInvariantClaim : Prop :=
  ∀ (ops : List (Op Nat)) (idb : String) (b : Bus Nat),
    (runOps ops).db idb = some b → busInv b

/-- An operation sequence is benign when every explicit create supplies
an initial count of `0` (or omits it). -/
def benignOp {α : Type} : Op α → Prop
  | .create _ initial => initial = none ∨ initial = some 0
  | .event _ _ _ _ => True

/-! ## Presence detector (`src/priemnik/ble_iphone_counter_qt.py`)

Association lists standing in for Python dicts (which keep insertion
order and hold one value per key). -/

/-- First-match lookup in an association list. -/
def lookupA {β : Type} : List (String × β) → String → Option β
  | [], _ => none
  | (k0, v0) :: rest, k => if k0 = k then some v0 else lookupA rest k

/-- Dict-style update: overwrite the value in place when the key exists,
append the pair otherwise. -/
def updateA {β : Type} : List (String × β) → String → β → List (String × β)
  | [], k, v => [(k, v)]
  | (k0, v0) :: rest, k, v =>
    if k0 = k then (k, v) :: rest else (k0, v0) :: updateA rest k v

/-- Python's `int(...)` on a float: truncation toward zero. -/
def pyint (q : ℚ) : Int :=
  if 0 ≤ q then ⌊q⌋ else ⌈q⌉

/-- Configuration of the receiver (the module-level constants of the
script, plus `tenPow`, the abstract model of the float `10 ** x`
operation, and `nameMatches`, the model of the case-insensitive
`NAME_SUBSTR` containment test applied to a device name). -/
structure BleConfig where
  radius_m : ℚ
  path_loss_n : ℚ
  txpower_fallback : Int
  ttl_sec : ℚ
  ttl_grace_sec : ℚ
  rssi_ema_alpha : ℚ
  rssi_outlier_db : Int
  tenPow : ℚ → ℚ
  nameMatches : String → Bool

/-- One raw radio observation, the payload emitted by the CoreBluetooth
delegate (`BLEDelegate`): identifier, name, RSSI and TxPower when the
advertisement carried them, and a timestamp. -/
structure Observation where
  identifier : Option String
  name : Option String
  rssi : Option Int
  tx_power : Option Int
  ts : ℚ
deriving Repr, DecidableEq

/-- The per-device record (`BleSeen` dataclass). -/
structure BleSeen where
  identifier : String
  name : Option String
  rssi : Option Int
  tx_power : Option Int
  last_seen_ts : ℚ
  last_distance_m : Option ℚ
  smoothed_rssi : Option ℚ
  last_within_radius : Option Bool
  last2_within_radius : Option Bool
  reported_in_bus : Option Bool
deriving Repr, DecidableEq

/-- Receiver state: the active map `_seen` and the persistent
`_reported_flags` map (the GUI-only `_all` mirror is outside the claims
and omitted). -/
structure ReceiverState where
  seen : List (String × BleSeen)
  reported_flags : List (String × Bool)
deriving Repr, DecidableEq

/-- Fresh receiver: nothing seen, nothing reported. -/
def initReceiver : ReceiverState := ⟨[], []⟩

/-- `_estimate_distance_m` (lines 137–162): `none` when RSSI is missing;
otherwise use the advertised TxPower only when it lies in `[-80, -30]`,
falling back to `txpower_fallback`, compute
`10 ** ((tp - rssi) / (10 * n))` and clamp the result into
`[1/10, 100]`. -/
def estimate_distance_m (cfg : BleConfig) (rssi : Option Int)
    (tx_power : Option Int) : Option ℚ :=
  match rssi with
  | none => none
  | some r =>
    let tp : Int :=
      match tx_power with
      | some t => if -80 ≤ t ∧ t ≤ -30 then t else cfg.txpower_fallback
      | none => cfg.txpower_fallback
    let d : ℚ := cfg.tenPow (((tp : ℚ) - (r : ℚ)) / (10 * cfg.path_loss_n))
    some (max (1 / 10) (min d 100))

/-- RSSI smoothing of `on_ble_discovered` (lines 365–379): no RSSI keeps
the smoothed value undefined for this record; with no usable previous
smoothed value the raw sample becomes the smoothed value; otherwise a
jump larger than the outlier threshold is replaced by
`int(prev ± threshold)` (note Python's truncating `int` cast) before the
exponential blend. -/
def smooth_rssi (cfg : BleConfig) (prevSmoothed : Option ℚ)
    (raw : Option Int) : Option ℚ :=
  match raw with
  | none => none
  | some r =>
    match prevSmoothed with
    | none => some ((r : ℚ))
    | some s =>
      let rEff : Int :=
        if |(r : ℚ) - s| > (cfg.rssi_outlier_db : ℚ) then
          pyint (s + (if (r : ℚ) - s > 0 then 1 else -1) * (cfg.rssi_outlier_db : ℚ))
        else r
      some (cfg.rssi_ema_alpha * (rEff : ℚ) + (1 - cfg.rssi_ema_alpha) * s)

/-- The smoothed value the handler computes for observation `obs` of
device `pid` (previous smoothed value looked up in `_seen`). -/
def obsSmoothed (cfg : BleConfig) (st : ReceiverState) (obs : Observation)
    (pid : String) : Option ℚ :=
  smooth_rssi cfg ((lookupA st.seen pid).bind BleSeen.smoothed_rssi) obs.rssi

/-- The distance the handler computes: the smoothed RSSI truncated by
`int(...)` when available, the raw RSSI otherwise, fed to the
estimator together with the advertised TxPower. -/
def obsDistance (cfg : BleConfig) (st : ReceiverState) (obs : Observation)
    (pid : String) : Option ℚ :=
  estimate_distance_m cfg
    (match obsSmoothed cfg st obs pid with
     | some sq => some (pyint sq)
     | none => obs.rssi)
    obs.tx_power

/-- `within = (dist_new is not None and dist_new <= RADIUS_M)`. -/
def withinRadius (cfg : BleConfig) (dist : Option ℚ) : Bool :=
  match dist with
  | some d => decide (d ≤ cfg.radius_m)
  | none => false

/-- `on_ble_discovered` (lines 345–419): drop observations without an
identifier or a (filter-matching) name; otherwise smooth the RSSI,
estimate the distance, shift the within-radius history
(`latest := within`, `previous := old latest`), carry the persistent
reported flag over, and store the rebuilt record in `_seen`. -/
def on_ble_discovered (cfg : BleConfig) (st : ReceiverState)
    (obs : Observation) : ReceiverState :=
  match obs.identifier with
  | none => st
  | some pid =>
    if pid = "" then st
    else
      match obs.name with
      | none => st
      | some nm =>
        if nm = "" then st
        else if ¬ cfg.nameMatches nm then st
        else
          let prev := lookupA st.seen pid
          let smoothed := obsSmoothed cfg st obs pid
          let distNew := obsDistance cfg st obs pid
          let within := withinRadius cfg distNew
          let newRec : BleSeen :=
            { identifier := pid
              name := some nm
              rssi := obs.rssi
              tx_power := obs.tx_power
              last_seen_ts := obs.ts
              last_distance_m := distNew
              smoothed_rssi := smoothed
              last_within_radius := some within
              last2_within_radius := prev.bind BleSeen.last_within_radius
              reported_in_bus := lookupA st.reported_flags pid }
          { st with seen := updateA st.seen pid newRec }

/-- The presence decision of `_tick` (lines 434–438): with a recorded
history, present iff the latest sample was within radius or the previous
one was; without one, fall back to the last distance. -/
def presenceOf (cfg : BleConfig) (rec : BleSeen) : Bool :=
  match rec.last_within_radius with
  | some lw => lw || decide (rec.last2_within_radius = some true)
  | none =>
    match rec.last_distance_m with
    | some d => decide (d ≤ cfg.radius_m)
    | none => false

/-- A transition event handed to `_post_device_event_async` by `_tick`. -/
structure TickEvent where
  id_bus : String
  id_device : String
  flag : Bool
deriving Repr, DecidableEq

/-- Which transition (if any) `_tick` reports for a surviving record:
first evaluation reports only an entry; afterwards any change of the
presence flag is reported. -/
def tickEmit (rec : BleSeen) (inside : Bool) : Option Bool :=
  match rec.reported_in_bus with
  | none => if inside then some true else none
  | some p => if p ≠ inside then some inside else none

/-- How `_tick` updates the persistent `_reported_flags` map for one
record (untouched when nothing changes). -/
def tickFlagsUpd (flags : List (String × Bool)) (key : String)
    (rec : BleSeen) (inside : Bool) : List (String × Bool) :=
  match rec.reported_in_bus with
  | none => updateA flags key inside
  | some p => if p ≠ inside then updateA flags key inside else flags

/-- Accumulator of the `_tick` loop: surviving records, the reported-flag
map, the emitted events, and the number of present devices. -/
structure TickAcc where
  keep : List (String × BleSeen)
  flags : List (String × Bool)
  events : List TickEvent
  inside_count : Nat
deriving Repr, DecidableEq

/-- One iteration of the `_tick` loop (lines 428–509): a record older
than `TTL + grace` is dropped on the spot (`continue`) — no presence
evaluation, no event; otherwise the record survives with its
`reported_in_bus` set to the current presence, the flag map and event
list are extended per `tickEmit`, and the present counter is bumped. -/
def tickStep (cfg : BleConfig) (idBus : String) (now : ℚ) (acc : TickAcc)
    (kv : String × BleSeen) : TickAcc :=
  if now - kv.2.last_seen_ts > cfg.ttl_sec + cfg.ttl_grace_sec then acc
  else
    let inside := presenceOf cfg kv.2
    { keep := acc.keep ++ [(kv.1, { kv.2 with reported_in_bus := some inside })]
      flags := tickFlagsUpd acc.flags kv.1 kv.2 inside
      events := acc.events ++
        ((tickEmit kv.2 inside).map (fun fl => TickEvent.mk idBus kv.1 fl)).toList
      inside_count := acc.inside_count + (if inside then 1 else 0) }

/-- `_tick`: fold the loop over `_seen`, returning the new receiver
state, the transition events posted this tick, and the display count. -/
def tick (cfg : BleConfig) (idBus : String) (now : ℚ) (st : ReceiverState) :
    ReceiverState × List TickEvent × Nat :=
  let acc := st.seen.foldl (tickStep cfg idBus now) ⟨[], st.reported_flags, [], 0⟩
  (⟨acc.keep, acc.flags⟩, acc.events, acc.inside_count)

/-! ## WebSocket fanout (`src/backend/main.py`, `websocket_bus_count`)

Outgoing frames are opaque values of a parameter type `π`;
`mkSnap id_bus count` models the JSON object `{id_bus, count}` the
endpoint builds itself.  An element of the pubsub stream is `none` when
`get_message` timed out, otherwise a message with its channel `mtype` and
the result of `json.loads` on its data (`none` models a parse failure).
`countAt i` is the value `get_count` would read while handling the `i`-th
stream element (the mirror moves concurrently with the socket loop). -/

structure WsMsg (π : Type) where
  mtype : String
  parsed : Option π
deriving Repr, DecidableEq

/-- The frame the loop sends for stream element `om` at index `i`, if
any: timeouts and non-`"message"` types are skipped, a parsed payload is
forwarded as-is, a parse failure is replaced by a fresh snapshot. -/
def ws_emit {π : Type} (mkSnap : String → Int → π) (idBus : String)
    (countAt : Nat → Int) (i : Nat) (om : Option (WsMsg π)) : Option π :=
  match om with
  | none => none
  | some m =>
    if m.mtype = "message" then
      some (match m.parsed with
            | some p => p
            | none => mkSnap idBus (countAt i))
    else none

/-- The `while True` loop of `websocket_bus_count`, reading stream
element `i` onward and collecting the frames it sends. -/
def ws_loop {π : Type} (mkSnap : String → Int → π) (idBus : String)
    (countAt : Nat → Int) : Nat → List (Option (WsMsg π)) → List π
  | _, [] => []
  | i, om :: rest =>
    match ws_emit mkSnap idBus countAt i om with
    | some p => p :: ws_loop mkSnap idBus countAt (i + 1) rest
    | none => ws_loop mkSnap idBus countAt (i + 1) rest

/-- `websocket_bus_count` (lines 126–151): send the snapshot of the
current count first, then run the subscription loop over the incoming
stream. -/
def websocket_bus_count {π : Type} (mkSnap : String → Int → π)
    (idBus : String) (initial : Int) (countAt : Nat → Int)
    (msgs : List (Option (WsMsg π))) : List π :=
  mkSnap idBus initial :: ws_loop mkSnap idBus countAt 0 msgs

/-! ## Spec-side definitions

These follow the wording of the specification (for refinement claims);
the reference is `spec.md` §4.1, §4.2 and §8. -/

/-- The spec's outlier clamp, §4.1: replace the raw sample with
`previous ± threshold` when it leaves the band, which is exactly clamping
into `[previous - threshold, previous + threshold]`. -/
def specClampQ (outlier : Int) (s : ℚ) (raw : Int) : ℚ :=
  max (s - (outlier : ℚ)) (min ((raw : ℚ)) (s + (outlier : ℚ)))

/-- Claim C4 as stated (spec §4.1/§8): with a previous smoothed value `s`
the new smoothed value is `α * clamp(raw, s ± threshold) + (1 - α) * s`,
with no truncation anywhere. -/
def smoothingSpecClaim : Prop :=
  ∀ (cfg : BleConfig) (s : ℚ) (raw : Int),
    smooth_rssi cfg (some s) (some raw) =
      some (cfg.rssi_ema_alpha * specClampQ cfg.rssi_outlier_db s raw +
            (1 - cfg.rssi_ema_alpha) * s)

/-- The spec's reference-power selection, §4.2: the calibrated value only
when it is plausible (within −80..−30 dBm), the fallback otherwise. -/
def spec_ref_power (tx : Option Int) (fallback : Int) : Int :=
  match tx with
  | some t => if -80 ≤ t ∧ t ≤ -30 then t else fallback
  | none => fallback

/-- The spec's distance estimator, §4.2: undefined without a signal
strength, otherwise `10 ^ ((referencePower - signalStrength) / (10 n))`
clamped into `[0.1, 100]`. -/
def spec_distance (cfg : BleConfig) (rssi : Option Int) (tx : Option Int) :
    Option ℚ :=
  rssi.map (fun r =>
    let e : ℚ := (((spec_ref_power tx cfg.txpower_fallback : Int)) - (r : ℚ)) /
      (10 * cfg.path_loss_n)
    max (1 / 10) (min (cfg.tenPow e) 100))

/-- Claim C8 as stated (spec §3 invariant): once some observation has
defined `smoothed_rssi` for a device, every later processed observation
for that device leaves it defined. -/
def smoothedStaysDefinedClaim : Prop :=
  ∀ (cfg : BleConfig) (st : ReceiverState) (obs : Observation)
    (pid : String) (r r2 : BleSeen),
    lookupA st.seen pid = some r → r.smoothed_rssi.isSome = true →
    lookupA (on_ble_discovered cfg st obs).seen pid = some r2 →
    r2.smoothed_rssi.isSome = true

/-- Claim C2's reading of "removes the corresponding entry from the
parallel payload list": the payload stored at the member's position is
the one deleted. -/
def removeCorrespondingClaim : Prop :=
  ∀ (s : LedgerState Nat) (idb idd : String) (data : Nat) (b b2 : Bus Nat),
    s.db idb = some b → idd ∈ b.id_devices →
    ((handle_device_event s idb idd data false).1).db idb = some b2 →
    b2.devices = b.devices.eraseIdx (b.id_devices.indexOf idd)

/-- All buses stored in a ledger state satisfy the ledger invariant. -/
def stateInv {α : Type} (s : LedgerState α) : Prop :=
  ∀ idb b, s.db idb = some b → busInv b

/-! ## Concrete instances used by counterexamples and witnesses -/

/-- The default configuration of the script (`RADIUS_M = 1`, `n = 2`,
fallback `-59`, `TTL 8 s` + `0.5 s` grace, `α = 0.35`, outlier `12 dB`),
with a trivial `tenPow` model and a filter accepting every name. -/
def testConfig : BleConfig :=
  { radius_m := 1
    path_loss_n := 2
    txpower_fallback := -59
    ttl_sec := 8
    ttl_grace_sec := 1 / 2
    rssi_ema_alpha := 7 / 20
    rssi_outlier_db := 12
    tenPow := fun _ => 2
    nameMatches := fun _ => true }

/-- A ledger with one bus `"B"` holding member `"D"` with payload `5`. -/
def exLedger : LedgerState Nat :=
  { db := fun k => if k = "B" then some ⟨"B", [5], ["D"], 1⟩ else none
    counts := fun k => if k = "B" then 1 else 0
    published := [] }

/-- A device record whose smoothed RSSI is defined. -/
def exRec1 : BleSeen :=
  { identifier := "X"
    name := some "iPhone"
    rssi := some (-60)
    tx_power := none
    last_seen_ts := 0
    last_distance_m := some 2
    smoothed_rssi := some (-60)
    last_within_radius := some false
    last2_within_radius := none
    reported_in_bus := none }

/-- Receiver state tracking `exRec1`. -/
def exSt1 : ReceiverState := ⟨[("X", exRec1)], []⟩

/-- An observation of the same device without a signal strength. -/
def exObs2 : Observation :=
  ⟨some "X", some "iPhone", none, none, 1⟩

/-- A first observation of device `"X"` at RSSI −60. -/
def exObs1 : Observation :=
  ⟨some "X", some "iPhone", some (-60), none, 0⟩

/-! ## Helper lemmas -/

theorem filter_ne_length {γ : Type} [DecidableEq γ] :
    ∀ {l : List γ} {a : γ}, l.Nodup → a ∈ l →
      (l.filter (fun x => x ≠ a)).length + 1 = l.length := by
  intro l a
  induction l with
  | nil => intro _ h; cases h
  | cons b t ih =>
    intro hn hmem
    rw [List.nodup_cons] at hn
    by_cases hba : b = a
    · subst hba
      have hself : t.filter (fun x => x ≠ b) = t := by
        apply List.filter_eq_self.mpr
        intro x hx
        simp only [ne_eq, decide_eq_true_eq]
        intro hxb
        exact hn.1 (hxb ▸ hx)
      rw [List.filter_cons_of_neg (by simp), hself, List.length_cons]
    · have hat : a ∈ t := by
        rcases List.mem_cons.mp hmem with h | h
        · exact absurd h.symm hba
        · exact h
      rw [List.filter_cons_of_pos (by simpa using hba)]
      have h1 := ih hn.2 hat
      simp only [List.length_cons]
      omega

/-- Branch characterization: the bus exists and the device is already a
member; the `flag = true` event answers from the mirror and leaves the
state untouched. -/
theorem hde_already_present {α : Type} [DecidableEq α] {s : LedgerState α}
    {idb idd : String} {b : Bus α} (data : α) (hdb : s.db idb = some b)
    (hmem : idd ∈ b.id_devices) :
    handle_device_event s idb idd data true =
      (s, ⟨"ok", "already present", s.counts idb⟩) := by
  simp [handle_device_event, ensure_bus, hdb, hmem, get_count]

/-- Branch characterization: the bus exists and the device is not a
member; the `flag = true` event stores `addedBus`, bumps the mirrored
count and publishes it. -/
theorem hde_added {α : Type} [DecidableEq α] {s : LedgerState α}
    {idb idd : String} {b : Bus α} (data : α) (hdb : s.db idb = some b)
    (hmem : idd ∉ b.id_devices) :
    handle_device_event s idb idd data true =
      ({ db := fun k => if k = idb then some (addedBus b idd data) else s.db k
         counts := fun k => if k = idb then s.counts idb + 1 else s.counts k
         published := s.published ++ [(idb, s.counts idb + 1)] },
       ⟨"ok", "added", s.counts idb + 1⟩) := by
  simp [handle_device_event, ensure_bus, hdb, hmem, incr_count]

/-- Branch characterization: the bus exists and the device is a member;
the `flag = false` event stores `removedBus`, floors the decremented
mirror at `0` and publishes it. -/
theorem hde_removed {α : Type} [DecidableEq α] {s : LedgerState α}
    {idb idd : String} {b : Bus α} (data : α) (hdb : s.db idb = some b)
    (hmem : idd ∈ b.id_devices) :
    handle_device_event s idb idd data false =
      ({ db := fun k => if k = idb then some (removedBus b idd data) else s.db k
         counts := fun k => if k = idb then max 0 (s.counts idb - 1) else s.counts k
         published := s.published ++ [(idb, max 0 (s.counts idb - 1))] },
       ⟨"ok", "removed", max 0 (s.counts idb - 1)⟩) := by
  simp [handle_device_event, ensure_bus, hdb, hmem, decr_count]

/-- Branch characterization: the bus exists and the device is not a
member; the `flag = false` event answers from the mirror and leaves the
state untouched. -/
theorem hde_not_present {α : Type} [DecidableEq α] {s : LedgerState α}
    {idb idd : String} {b : Bus α} (data : α) (hdb : s.db idb = some b)
    (hmem : idd ∉ b.id_devices) :
    handle_device_event s idb idd data false =
      (s, ⟨"ok", "not present", s.counts idb⟩) := by
  simp [handle_device_event, ensure_bus, hdb, hmem, get_count]

/-- An event for an unknown bus behaves like the same event after the
implicit creation of an empty bus with count `0`. -/
theorem hde_unknown {α : Type} [DecidableEq α] {s : LedgerState α}
    {idb : String} (idd : String) (data : α) (flag : Bool)
    (hdb : s.db idb = none) :
    handle_device_event s idb idd data flag =
      handle_device_event
        { s with db := fun k => if k = idb then some ⟨idb, [], [], 0⟩ else s.db k }
        idb idd data flag := by
  simp [handle_device_event, ensure_bus, hdb]

/-- Creating a fresh bus stores `initial.getD 0` in the row and mirror
and publishes it. -/
theorem create_bus_new {α : Type} [DecidableEq α] {s : LedgerState α}
    {idb : String} (initial : Option Int) (hdb : s.db idb = none) :
    create_bus s idb initial =
      .ok ({ db := fun k =>
               if k = idb then some ⟨idb, [], [], initial.getD 0⟩ else s.db k
             counts := fun k => if k = idb then initial.getD 0 else s.counts k
             published := s.published ++ [(idb, initial.getD 0)] },
           ⟨"ok", idb, initial.getD 0⟩) := by
  simp [create_bus, hdb, set_count, get_count]

/-- The freshly created empty bus satisfies the invariant, so implicit
creation preserves `stateInv`. -/
theorem stateInv_insert_empty {s : LedgerState Nat} (hs : stateInv s)
    (idb : String) :
    stateInv { s with
      db := fun k => if k = idb then some ⟨idb, [], [], 0⟩ else s.db k } := by
  intro k b h
  by_cases he : k = idb
  · simp only [he, if_pos rfl] at h
    injection h with h
    subst h
    simp [busInv]
  · simp only [if_neg he] at h
    exact hs k b h

/-- `addedBus` preserves the invariant when the id was not a member. -/
theorem busInv_addedBus {b : Bus Nat} {idd : String} (data : Nat)
    (hinv : busInv b) (hmem : idd ∉ b.id_devices) :
    busInv (addedBus b idd data) := by
  rcases hinv with ⟨hn, hc, hpos⟩
  refine ⟨?_, ?_, ?_⟩
  · simp [addedBus, List.nodup_append, hn, hmem]
  · simp only [addedBus, List.length_append, List.length_cons, List.length_nil]
    push_cast
    omega
  · simp only [addedBus]
    omega

/-- `removedBus` preserves the invariant when the id was a member. -/
theorem busInv_removedBus {b : Bus Nat} {idd : String} (data : Nat)
    (hinv : busInv b) (hmem : idd ∈ b.id_devices) :
    busInv (removedBus b idd data) := by
  rcases hinv with ⟨hn, hc, hpos⟩
  have hflt := filter_ne_length (a := idd) hn hmem
  have hlen1 : 1 ≤ b.id_devices.length :=
    List.length_pos.mpr (List.ne_nil_of_mem hmem)
  refine ⟨hn.filter _, ?_, ?_⟩
  · simp only [removedBus]
    omega
  · simp only [removedBus]
    omega

/-- A device event on a state whose buses all satisfy the invariant
yields a state whose buses all satisfy the invariant. -/
theorem stateInv_event {s : LedgerState Nat} (idb idd : String) (data : Nat)
    (flag : Bool) (hs : stateInv s) :
    stateInv (handle_device_event s idb idd data flag).1 := by
  cases hdb : s.db idb with
  | none =>
    rw [hde_unknown idd data flag hdb]
    have hs1 := stateInv_insert_empty hs idb
    have hdb1 : ({ s with
        db := fun k => if k = idb then some ⟨idb, [], [], 0⟩ else s.db k
          : LedgerState Nat }).db idb = some ⟨idb, [], [], 0⟩ := by
      simp
    cases flag with
    | true =>
      rw [hde_added data hdb1 (by simp)]
      intro k b h
      by_cases he : k = idb
      · simp only [he, if_pos rfl] at h
        injection h with h
        subst h
        exact busInv_addedBus data (by simp [busInv]) (by simp)
      · simp only [if_neg he] at h
        exact hs k b h
    | false =>
      rw [hde_not_present data hdb1 (by simp)]
      exact hs1
  | some b0 =>
    have hinv := hs idb b0 hdb
    cases flag with
    | true =>
      by_cases hmem : idd ∈ b0.id_devices
      · rw [hde_already_present data hdb hmem]
        exact hs
      · rw [hde_added data hdb hmem]
        intro k b h
        by_cases he : k = idb
        · simp only [he, if_pos rfl] at h
          injection h with h
          subst h
          exact busInv_addedBus data hinv hmem
        · simp only [if_neg he] at h
          exact hs k b h
    | false =>
      by_cases hmem : idd ∈ b0.id_devices
      · rw [hde_removed data hdb hmem]
        intro k b h
        by_cases he : k = idb
        · simp only [he, if_pos rfl] at h
          injection h with h
          subst h
          exact busInv_removedBus data hinv hmem
        · simp only [if_neg he] at h
          exact hs k b h
      · rw [hde_not_present data hdb hmem]
        exact hs

/-- Each benign ledger operation preserves the ledger invariant. -/
theorem stateInv_applyOp {s : LedgerState Nat} {op : Op Nat}
    (hs : stateInv s) (hb : benignOp op) : stateInv (applyOp s op) := by
  cases op with
  | create idb initial =>
    cases hdb : s.db idb with
    | some b0 =>
      intro k b h
      simp only [applyOp, create_bus, hdb] at h
      exact hs k b h
    | none =>
      have hv : initial.getD 0 = 0 := by
        rcases hb with h1 | h1 <;> simp [h1]
      intro k b h
      simp only [applyOp, create_bus_new initial hdb] at h
      by_cases he : k = idb
      · simp only [he, if_pos rfl] at h
        injection h with h
        subst h
        simp [busInv, hv]
      · simp only [if_neg he] at h
        exact hs k b h
  | event idb idd data flag =>
    exact stateInv_event idb idd data flag hs

/-- Every state reached by benign operations satisfies the invariant. -/
theorem stateInv_runOps (ops : List (Op Nat))
    (hben : ∀ op ∈ ops, benignOp op) : stateInv (runOps ops) := by
  have main : ∀ (l : List (Op Nat)) (s : LedgerState Nat), stateInv s →
      (∀ op ∈ l, benignOp op) → stateInv (l.foldl applyOp s) := by
    intro l
    induction l with
    | nil => intro s hs _; exact hs
    | cons op t ih =>
      intro s hs hbl
      simp only [List.foldl_cons]
      exact ih _ (stateInv_applyOp hs (hbl op (List.mem_cons_self op t)))
        (fun o ho => hbl o (List.mem_cons_of_mem _ ho))
  exact main ops initState
    (fun k b hcontra => by simp [initState] at hcontra) hben

/-! ## C1 -/

/-- C1, counterexample: the claim quantifies over all container-create
and device-event sequences, but `create_bus` accepts an arbitrary
`initial_count`, so `create "B" 1` stores count `1` with an empty member
set and the invariant `count == |member set|` fails immediately. -/
theorem c1_ledger_invariant_counterexample : ¬ ledgerInvariantClaim := by
  intro h
  have hb : (runOps ([Op.create "B" (some 1)] : List (Op Nat))).db "B" =
      some ⟨"B", [], [], 1⟩ := by
    simp [runOps, applyOp, create_bus, initState, set_count]
  have hinv := h [Op.create "B" (some 1)] "B" ⟨"B", [], [], 1⟩ hb
  rcases hinv with ⟨-, hc, -⟩
  norm_num at hc

/-- C1, amended: for every sequence of container-create and device-event
operations in which each explicit create supplies an initial count of 0
(or omits it), every stored container satisfies the ledger invariant
after each operation: the stored count is never negative and always
equals the number of entries in the container's member-id set, which
contains no duplicates. -/
theorem c1_ledger_invariant (ops : List (Op Nat))
    (hben : ∀ op ∈ ops, benignOp op) (idb : String) (b : Bus Nat)
    (hdb : (runOps ops).db idb = some b) : busInv b :=
  stateInv_runOps ops hben idb b hdb

/-- C1, witness: after creating `"B"` (no initial count) and adding
device `"D"`, the stored bus row satisfies the ledger invariant. -/
theorem c1_ledger_invariant_witness :
    busInv (Bus.mk "B" [5] ["D"] 1 : Bus Nat) := by
  refine c1_ledger_invariant
    ([Op.create "B" none, Op.event "B" "D" 5 true] : List (Op Nat)) ?_ "B" _ ?_
  · intro op hop
    rcases List.mem_cons.mp hop with h | h
    · subst h
      exact Or.inl rfl
    · rcases List.mem_cons.mp h with h1 | h1
      · subst h1
        exact True.intro
      · cases h1
  · simp [runOps, applyOp, create_bus, initState, set_count,
      handle_device_event, ensure_bus, incr_count, get_count, addedBus]

/-! ## C2 -/

/-- C2, counterexample: removing member `"D"` (stored with payload `5`)
while submitting payload `7` keeps `5` in the payload list — the code
filters the payload list by the *submitted* payload, not by the entry
stored for the member — so the "removes the corresponding entry" reading
is false. -/
theorem c2_remove_counterexample : ¬ removeCorrespondingClaim := by
  intro h
  have hdb : exLedger.db "B" = some ⟨"B", [5], ["D"], 1⟩ := by
    simp [exLedger]
  have hres : ((handle_device_event exLedger "B" "D" 7 false).1).db "B" =
      some (removedBus ⟨"B", [5], ["D"], 1⟩ "D" 7) := by
    rw [hde_removed 7 hdb (by simp)]
    simp
  have hcl := h exLedger "B" "D" 7 ⟨"B", [5], ["D"], 1⟩
    (removedBus ⟨"B", [5], ["D"], 1⟩ "D" 7) hdb (by simp) hres
  exact absurd hcl (by decide)

/-- C2, amended: removing a present member deletes its id from the
member-id set, deletes from the parallel payload list every entry equal
to the *submitted* payload (the entry stored at add time survives unless
it equals the submitted one), floors the decrement at 0 in both the row
and the mirror, publishes the new count, and answers "removed" with the
new count. -/
theorem c2_remove_member (s : LedgerState Nat) (idb idd : String)
    (data : Nat) (b : Bus Nat) (hdb : s.db idb = some b)
    (hmem : idd ∈ b.id_devices) :
    ((handle_device_event s idb idd data false).1).db idb =
        some (removedBus b idd data) ∧
    idd ∉ (removedBus b idd data).id_devices ∧
    (removedBus b idd data).devices = b.devices.filter (fun d => d ≠ data) ∧
    (removedBus b idd data).count = max 0 (b.count - 1) ∧
    ((handle_device_event s idb idd data false).1).counts idb =
        max 0 (s.counts idb - 1) ∧
    ((handle_device_event s idb idd data false).1).published =
        s.published ++ [(idb, max 0 (s.counts idb - 1))] ∧
    (handle_device_event s idb idd data false).2 =
        ⟨"ok", "removed", max 0 (s.counts idb - 1)⟩ := by
  rw [hde_removed data hdb hmem]
  refine ⟨by simp, ?_, rfl, rfl, by simp, rfl, rfl⟩
  simp [removedBus]

/-- C2, witness: removing the present member `"D"` of the example bus
answers "removed" with count 0. -/
theorem c2_remove_member_witness :
    (handle_device_event exLedger "B" "D" 7 false).2 =
      ⟨"ok", "removed", 0⟩ := by
  have h := (c2_remove_member exLedger "B" "D" 7 ⟨"B", [5], ["D"], 1⟩
    (by simp [exLedger]) (by simp)).2.2.2.2.2.2
  simpa [exLedger] using h

/-! ## C3 -/

/-- After an add event, the bus exists, the device is a member, and the
mirrored count equals the count in the response. -/
theorem hde_add_then_present (s : LedgerState Nat) (idb idd : String)
    (d1 : Nat) :
    ∃ b, ((handle_device_event s idb idd d1 true).1).db idb = some b ∧
      idd ∈ b.id_devices ∧
      ((handle_device_event s idb idd d1 true).1).counts idb =
        (handle_device_event s idb idd d1 true).2.count := by
  cases hdb : s.db idb with
  | none =>
    rw [hde_unknown idd d1 true hdb]
    have hdb1 : ({ s with
        db := fun k => if k = idb then some ⟨idb, [], [], 0⟩ else s.db k
          : LedgerState Nat }).db idb = some ⟨idb, [], [], 0⟩ := by
      simp
    rw [hde_added d1 hdb1 (by simp)]
    exact ⟨addedBus ⟨idb, [], [], 0⟩ idd d1, by simp, by simp [addedBus], by simp⟩
  | some b0 =>
    by_cases hmem : idd ∈ b0.id_devices
    · rw [hde_already_present d1 hdb hmem]
      exact ⟨b0, hdb, hmem, rfl⟩
    · rw [hde_added d1 hdb hmem]
      exact ⟨addedBus b0 idd d1, by simp, by simp [addedBus], by simp⟩

/-- C3: reporting `present = true` twice in a row for the same container
and entity leaves the state of the second call exactly as after the
first, answers "already present", and returns the same count as the
first call — the second call is a no-op. -/
theorem c3_add_idempotent (s : LedgerState Nat) (idb idd : String)
    (d1 d2 : Nat) :
    (handle_device_event (handle_device_event s idb idd d1 true).1
        idb idd d2 true).1 = (handle_device_event s idb idd d1 true).1 ∧
    (handle_device_event (handle_device_event s idb idd d1 true).1
        idb idd d2 true).2.message = "already present" ∧
    (handle_device_event (handle_device_event s idb idd d1 true).1
        idb idd d2 true).2.count =
      (handle_device_event s idb idd d1 true).2.count := by
  obtain ⟨b, hdb2, hmem2, hcnt⟩ := hde_add_then_present s idb idd d1
  rw [hde_already_present d2 hdb2 hmem2]
  exact ⟨rfl, rfl, hcnt⟩

/-! ## C10 -/

/-- C10: for every well-formed device-event payload the handler is total
and error-free: status "ok", message one of the four fixed strings, an
integer count, and an unknown container is first created with empty
member lists and count 0 and exists afterwards. -/
theorem c10_device_event_total (s : LedgerState Nat) (idb idd : String)
    (data : Nat) (flag : Bool) :
    (handle_device_event s idb idd data flag).2.status = "ok" ∧
    ((handle_device_event s idb idd data flag).2.message = "added" ∨
     (handle_device_event s idb idd data flag).2.message = "removed" ∨
     (handle_device_event s idb idd data flag).2.message = "already present" ∨
     (handle_device_event s idb idd data flag).2.message = "not present") ∧
    (s.db idb = none →
      (ensure_bus s idb).2 = ⟨idb, [], [], 0⟩ ∧
      ((ensure_bus s idb).1).db idb = some ⟨idb, [], [], 0⟩ ∧
      (((handle_device_event s idb idd data flag).1).db idb).isSome = true) := by
  cases hdb : s.db idb with
  | none =>
    rw [hde_unknown idd data flag hdb]
    have hdb1 : ({ s with
        db := fun k => if k = idb then some ⟨idb, [], [], 0⟩ else s.db k
          : LedgerState Nat }).db idb = some ⟨idb, [], [], 0⟩ := by
      simp
    cases flag with
    | true =>
      rw [hde_added data hdb1 (by simp)]
      exact ⟨rfl, Or.inl rfl,
        fun _ => ⟨by simp [ensure_bus, hdb], by simp [ensure_bus, hdb], by simp⟩⟩
    | false =>
      rw [hde_not_present data hdb1 (by simp)]
      exact ⟨rfl, Or.inr (Or.inr (Or.inr rfl)),
        fun _ => ⟨by simp [ensure_bus, hdb], by simp [ensure_bus, hdb], by simp⟩⟩
  | some b0 =>
    cases flag with
    | true =>
      by_cases hmem : idd ∈ b0.id_devices
      · rw [hde_already_present data hdb hmem]
        exact ⟨rfl, Or.inr (Or.inr (Or.inl rfl)),
          fun hc => by simp at hc⟩
      · rw [hde_added data hdb hmem]
        exact ⟨rfl, Or.inl rfl, fun hc => by simp at hc⟩
    | false =>
      by_cases hmem : idd ∈ b0.id_devices
      · rw [hde_removed data hdb hmem]
        exact ⟨rfl, Or.inr (Or.inl rfl), fun hc => by simp at hc⟩
      · rw [hde_not_present data hdb hmem]
        exact ⟨rfl, Or.inr (Or.inr (Or.inr rfl)),
          fun hc => by simp at hc⟩

/-- C10, witness: an add event for the unknown container `"W"` on the
empty backend leaves the container present in the store. -/
theorem c10_device_event_total_witness :
    (((handle_device_event (initState : LedgerState Nat) "W" "D" 0 true).1).db
        "W").isSome = true :=
  ((c10_device_event_total initState "W" "D" 0 true).2.2 rfl).2.2

/-! ## Receiver helper lemmas -/

theorem lookupA_updateA_self {β : Type} (l : List (String × β)) (k : String)
    (v : β) : lookupA (updateA l k v) k = some v := by
  induction l with
  | nil => simp [updateA, lookupA]
  | cons p rest ih =>
    obtain ⟨k0, v0⟩ := p
    by_cases he : k0 = k
    · simp [updateA, he, lookupA]
    · simp [updateA, he, lookupA, ih]

theorem lookupA_eq_none {β : Type} {l : List (String × β)} {k : String}
    (h : k ∉ l.map Prod.fst) : lookupA l k = none := by
  induction l with
  | nil => rfl
  | cons p rest ih =>
    obtain ⟨k0, v0⟩ := p
    simp only [List.map_cons, List.mem_cons, not_or] at h
    simp only [lookupA]
    rw [if_neg (fun hh => h.1 hh.symm)]
    exact ih h.2

theorem lookupA_mem_unique {β : Type} {l : List (String × β)} {k : String}
    {v : β} (hn : (l.map Prod.fst).Nodup) (hlk : lookupA l k = some v) :
    ∀ kv ∈ l, kv.1 = k → kv.2 = v := by
  induction l with
  | nil => intro kv h; cases h
  | cons p rest ih =>
    obtain ⟨k0, v0⟩ := p
    simp only [List.map_cons, List.nodup_cons] at hn
    intro kv hkv hk1
    rcases List.mem_cons.mp hkv with h | h
    · subst h
      simp only at hk1
      subst hk1
      simp [lookupA] at hlk
      exact hlk
    · by_cases he : k0 = k
      · exfalso
        apply hn.1
        rw [he, ← hk1]
        exact List.mem_map_of_mem Prod.fst h
      · simp only [lookupA, if_neg he] at hlk
        exact ih hn.2 hlk kv h hk1

/-- For `Option Bool`, the `last2 is True` test of the source equals
`getD false`. -/
theorem optTrue_getD (x : Option Bool) :
    decide (x = some true) = x.getD false := by
  cases x with
  | none => simp
  | some b => cases b <;> simp

/-- An observation that passes the identifier and name filters rebuilds
the device record exactly as `on_ble_discovered` lines 363–417 do. -/
theorem on_ble_discovered_processed (cfg : BleConfig) (st : ReceiverState)
    (obs : Observation) (pid nm : String)
    (hid : obs.identifier = some pid) (hpid : pid ≠ "")
    (hnm : obs.name = some nm) (hnm2 : nm ≠ "")
    (hmatch : cfg.nameMatches nm = true) :
    on_ble_discovered cfg st obs =
      ReceiverState.mk
        (updateA st.seen pid
          (BleSeen.mk pid (some nm) obs.rssi obs.tx_power obs.ts
            (obsDistance cfg st obs pid) (obsSmoothed cfg st obs pid)
            (some (withinRadius cfg (obsDistance cfg st obs pid)))
            ((lookupA st.seen pid).bind BleSeen.last_within_radius)
            (lookupA st.reported_flags pid)))
        st.reported_flags := by
  simp [on_ble_discovered, hid, hpid, hnm, hnm2, hmatch]

/-! ## C4 -/

/-- C4, counterexample: with the default α = 0.35 and threshold 12, the
previous smoothed value −50.7 and raw sample −70, the code clamps to
`int(-50.7 - 12) = -62` (truncating the float −62.7 toward zero), so the
smoothed value is 0.35·(−62) + 0.65·(−50.7) = −54.655, while the claim's
un-truncated formula gives 0.35·(−62.7) + 0.65·(−50.7) = −54.9. -/
theorem c4_smoothing_counterexample : ¬ smoothingSpecClaim := by
  intro h
  have hcl := h testConfig (-507 / 10) (-70)
  have hb1 : |(((-70 : Int)) : ℚ) - (-507 / 10)| > (((12 : Int)) : ℚ) := by
    rw [show (((-70 : Int)) : ℚ) = -70 by norm_num,
      show (((12 : Int)) : ℚ) = 12 by norm_num,
      show (-70 : ℚ) - (-507 / 10) = -193 / 10 by norm_num,
      abs_of_neg (by norm_num)]
    norm_num
  have hb2 : ¬ ((((-70 : Int)) : ℚ) - (-507 / 10) > 0) := by
    rw [show (((-70 : Int)) : ℚ) = -70 by norm_num]
    norm_num
  have hcode : smooth_rssi testConfig (some (-507 / 10)) (some (-70)) =
      some ((7 : ℚ) / 20 *
          ((pyint ((-507 / 10) + (-1) * ((12 : Int) : ℚ))) : ℚ) +
        (1 - (7 : ℚ) / 20) * (-507 / 10)) := by
    simp only [smooth_rssi, testConfig]
    rw [if_pos hb1, if_neg hb2]
  rw [hcode] at hcl
  injection hcl with hcl
  have hpyval : pyint ((-507 / 10) + (-1) * ((12 : Int) : ℚ)) = -62 := by
    unfold pyint
    rw [show ((-507 / 10 : ℚ) + (-1) * ((12 : Int) : ℚ)) = -627 / 10 by
      push_cast; ring]
    rw [if_neg (by norm_num), Int.ceil_eq_iff]
    constructor <;> norm_num
  have hclamp : specClampQ (12 : Int) (-507 / 10) (-70) = -627 / 10 := by
    unfold specClampQ
    rw [show (((-70 : Int)) : ℚ) = -70 by norm_num,
      show (((12 : Int)) : ℚ) = 12 by norm_num,
      min_eq_left (by norm_num), max_eq_left (by norm_num)]
    norm_num
  rw [hpyval] at hcl
  simp only [testConfig] at hcl
  rw [hclamp] at hcl
  norm_num at hcl

/-- C4, amended: with a previous smoothed value `s` the new smoothed
value is `α · c + (1 − α) · s` where the effective sample `c` is the raw
sample itself when it stays within the outlier threshold, and the clamp
`clamp(raw, s ± threshold)` truncated toward zero by Python's `int(...)`
cast when it does not; without a previous smoothed value the raw sample
(cast to float) is the new smoothed value. -/
theorem c4_smoothing (cfg : BleConfig) (s : ℚ) (raw : Int)
    (hout : 0 ≤ cfg.rssi_outlier_db) :
    smooth_rssi cfg (some s) (some raw) =
      some (cfg.rssi_ema_alpha *
        (((if |(raw : ℚ) - s| > (cfg.rssi_outlier_db : ℚ)
            then pyint (specClampQ cfg.rssi_outlier_db s raw)
            else raw) : Int) : ℚ) +
        (1 - cfg.rssi_ema_alpha) * s) ∧
    smooth_rssi cfg none (some raw) = some ((raw : ℚ)) ∧
    smooth_rssi cfg (some s) none = none := by
  refine ⟨?_, rfl, rfl⟩
  have hc : (0 : ℚ) ≤ (cfg.rssi_outlier_db : ℚ) := by exact_mod_cast hout
  by_cases habs : |(raw : ℚ) - s| > (cfg.rssi_outlier_db : ℚ)
  · have harg : s + (if (raw : ℚ) - s > 0 then 1 else -1) *
        (cfg.rssi_outlier_db : ℚ) = specClampQ cfg.rssi_outlier_db s raw := by
      rcases lt_or_le 0 ((raw : ℚ) - s) with hpos | hneg
      · rw [if_pos hpos]
        have h1 : (cfg.rssi_outlier_db : ℚ) < (raw : ℚ) - s := by
          rw [abs_of_pos hpos] at habs
          exact habs
        unfold specClampQ
        rw [min_eq_right (by linarith), max_eq_right (by linarith)]
        ring
      · rw [if_neg (not_lt.mpr hneg)]
        have h1 : (cfg.rssi_outlier_db : ℚ) < s - (raw : ℚ) := by
          rw [abs_of_nonpos (by linarith)] at habs
          linarith
        unfold specClampQ
        rw [min_eq_left (by linarith), max_eq_left (by linarith)]
        ring
    simp only [smooth_rssi, if_pos habs, harg]
  · simp only [smooth_rssi, if_neg habs]

/-- C4, witness: without a raw RSSI the smoothed value stays undefined
for this record (third conjunct of the amended claim at the default
configuration). -/
theorem c4_smoothing_witness : smooth_rssi testConfig (some 0) none = none :=
  (c4_smoothing testConfig 0 0 (by decide)).2.2

/-! ## C5 -/

/-- C5: after a processed observation the stored history is
`latest := within(this observation)`, `previous := old latest`, and the
derived presence used by `_tick` is exactly `latest OR previous`: one
in-radius sample makes the device present immediately, an out-of-radius
sample after an in-radius one keeps it present, and only two consecutive
out-of-radius samples (or a first sample outside) make it absent. -/
theorem c5_hysteresis (cfg : BleConfig) (st : ReceiverState)
    (obs : Observation) (pid nm : String) (r : BleSeen)
    (hid : obs.identifier = some pid) (hpid : pid ≠ "")
    (hnm : obs.name = some nm) (hnm2 : nm ≠ "")
    (hmatch : cfg.nameMatches nm = true)
    (hres : lookupA (on_ble_discovered cfg st obs).seen pid = some r) :
    r.last_within_radius =
      some (withinRadius cfg (obsDistance cfg st obs pid)) ∧
    r.last2_within_radius =
      (lookupA st.seen pid).bind BleSeen.last_within_radius ∧
    presenceOf cfg r =
      (withinRadius cfg (obsDistance cfg st obs pid) ||
       ((lookupA st.seen pid).bind BleSeen.last_within_radius).getD false) ∧
    (withinRadius cfg (obsDistance cfg st obs pid) = true →
      presenceOf cfg r = true) ∧
    ((lookupA st.seen pid).bind BleSeen.last_within_radius = some true →
      presenceOf cfg r = true) ∧
    (withinRadius cfg (obsDistance cfg st obs pid) = false →
      (lookupA st.seen pid).bind BleSeen.last_within_radius ≠ some true →
      presenceOf cfg r = false) := by
  rw [on_ble_discovered_processed cfg st obs pid nm hid hpid hnm hnm2 hmatch]
    at hres
  simp only [lookupA_updateA_self] at hres
  injection hres with hres
  subst hres
  refine ⟨rfl, rfl, ?_, ?_, ?_, ?_⟩
  · simp [presenceOf, optTrue_getD]
  · intro hw
    simp [presenceOf, hw]
  · intro hp
    simp [presenceOf, hp]
  · intro hw hp
    simp [presenceOf, hw, hp]

/-- C5, witness: the record stored for the first observation of `"X"`
satisfies the `latest OR previous` presence rule at the concrete
input. -/
theorem c5_hysteresis_witness :
    presenceOf testConfig
      (BleSeen.mk "X" (some "iPhone") (some (-60)) none 0
        (obsDistance testConfig initReceiver exObs1 "X")
        (obsSmoothed testConfig initReceiver exObs1 "X")
        (some (withinRadius testConfig
          (obsDistance testConfig initReceiver exObs1 "X")))
        none none) =
      (withinRadius testConfig (obsDistance testConfig initReceiver exObs1 "X") ||
       ((lookupA initReceiver.seen "X").bind BleSeen.last_within_radius).getD
          false) :=
  (c5_hysteresis testConfig initReceiver exObs1 "X" "iPhone" _
    rfl (by decide) rfl (by decide) rfl
    (by
      rw [on_ble_discovered_processed testConfig initReceiver exObs1 "X"
        "iPhone" rfl (by decide) rfl (by decide) rfl]
      exact lookupA_updateA_self _ _ _)).2.2.1

/-! ## C8 -/

/-- C8, counterexample: device `"X"` has a defined smoothed RSSI, then an
observation without a signal strength arrives; the handler rebuilds the
record with `smoothed_rssi = None`, so "once defined, stays defined after
every subsequent observation" is false. -/
theorem c8_smoothed_counterexample : ¬ smoothedStaysDefinedClaim := by
  intro h
  have hcl := h testConfig exSt1 exObs2 "X" exRec1
    ⟨"X", some "iPhone", none, none, 1, none, none, some false, some false,
      none⟩
    (by simp [exSt1, lookupA]) rfl
    (by
      rw [on_ble_discovered_processed testConfig exSt1 exObs2 "X" "iPhone"
        rfl (by decide) rfl (by decide) rfl]
      exact lookupA_updateA_self _ _ _)
  simp at hcl

/-- C8, amended: after each processed observation the smoothed RSSI of
the stored record is the conditioner's output, and it is defined iff
*this* observation carried a signal strength — an observation without one
resets the smoothed value to undefined even if it was defined before. -/
theorem c8_smoothed_tracks_rssi (cfg : BleConfig) (st : ReceiverState)
    (obs : Observation) (pid nm : String) (r : BleSeen)
    (hid : obs.identifier = some pid) (hpid : pid ≠ "")
    (hnm : obs.name = some nm) (hnm2 : nm ≠ "")
    (hmatch : cfg.nameMatches nm = true)
    (hres : lookupA (on_ble_discovered cfg st obs).seen pid = some r) :
    r.smoothed_rssi = obsSmoothed cfg st obs pid ∧
    r.smoothed_rssi.isSome = obs.rssi.isSome := by
  rw [on_ble_discovered_processed cfg st obs pid nm hid hpid hnm hnm2 hmatch]
    at hres
  simp only [lookupA_updateA_self] at hres
  injection hres with hres
  subst hres
  refine ⟨rfl, ?_⟩
  rcases hr : obs.rssi with _ | v
  · simp [obsSmoothed, smooth_rssi, hr]
  · rcases hp : (lookupA st.seen pid).bind BleSeen.smoothed_rssi with _ | q <;>
      simp [obsSmoothed, smooth_rssi, hr, hp]

/-- C8, witness: for the rssi-less observation `exObs2` the stored record
has an undefined smoothed value, matching the observation's missing
signal strength. -/
theorem c8_smoothed_tracks_rssi_witness :
    (⟨"X", some "iPhone", none, none, 1, none, none, some false, some false,
        none⟩ : BleSeen).smoothed_rssi.isSome = exObs2.rssi.isSome :=
  (c8_smoothed_tracks_rssi testConfig exSt1 exObs2 "X" "iPhone" _
    rfl (by decide) rfl (by decide) rfl
    (by
      rw [on_ble_discovered_processed testConfig exSt1 exObs2 "X" "iPhone"
        rfl (by decide) rfl (by decide) rfl]
      exact lookupA_updateA_self _ _ _)).2

/-! ## C6 -/

/-- `10 ^ 0.3` lies strictly between 1.99 and 2 (so `≈ 1.995` and inside
the clamp range). -/
theorem rpow_point3_bounds :
    (199 / 100 : ℝ) < (10 : ℝ) ^ ((3 : ℝ) / 10) ∧
    (10 : ℝ) ^ ((3 : ℝ) / 10) < 2 := by
  have h10 : (0 : ℝ) < 10 := by norm_num
  have hpow : ((10 : ℝ) ^ ((3 : ℝ) / 10)) ^ (10 : ℕ) = 1000 := by
    rw [← Real.rpow_natCast ((10 : ℝ) ^ ((3 : ℝ) / 10)) 10,
      ← Real.rpow_mul h10.le]
    rw [show ((3 : ℝ) / 10 * ((10 : ℕ) : ℝ)) = ((3 : ℕ) : ℝ) by norm_num]
    rw [Real.rpow_natCast]
    norm_num
  have hypos : (0 : ℝ) < (10 : ℝ) ^ ((3 : ℝ) / 10) :=
    Real.rpow_pos_of_pos h10 _
  constructor
  · by_contra hle
    push_neg at hle
    have hb : ((10 : ℝ) ^ ((3 : ℝ) / 10)) ^ (10 : ℕ) ≤
        (199 / 100 : ℝ) ^ (10 : ℕ) := pow_le_pow_left₀ hypos.le hle 10
    rw [hpow] at hb
    norm_num at hb
  · by_contra hge
    push_neg at hge
    have hb : (2 : ℝ) ^ (10 : ℕ) ≤ ((10 : ℝ) ^ ((3 : ℝ) / 10)) ^ (10 : ℕ) :=
      pow_le_pow_left₀ (by norm_num) hge 10
    rw [hpow] at hb
    norm_num at hb

/-- C6: the estimator agrees with the spec's description — undefined
exactly when the signal strength is unavailable, reference power taken
from the advertisement only inside −80..−30 dBm and the fallback
otherwise, `10 ^ ((referencePower − signalStrength) / (10 n))` clamped
into `[0.1, 100]`; with fallback −59, `n = 2` and RSSI −65 the exponent
is `3/10`, a value the clamp leaves unchanged on `[0.1, 100]`, and the
real `10 ^ 0.3` lies in `(1.99, 2)`, i.e. `≈ 1.995`. -/
theorem c6_distance_estimator :
    (∀ (cfg : BleConfig) (rssi tx : Option Int),
      estimate_distance_m cfg rssi tx = spec_distance cfg rssi tx) ∧
    (∀ (cfg : BleConfig) (rssi tx : Option Int),
      estimate_distance_m cfg rssi tx = none ↔ rssi = none) ∧
    (∀ cfg : BleConfig, cfg.path_loss_n = 2 → cfg.txpower_fallback = -59 →
      estimate_distance_m cfg (some (-65)) none =
        some (max (1 / 10) (min (cfg.tenPow (3 / 10)) 100))) ∧
    (∀ q : ℚ, 1 / 10 ≤ q → q ≤ 100 → max (1 / 10) (min q 100) = q) ∧
    ((199 / 100 : ℝ) < (10 : ℝ) ^ ((3 : ℝ) / 10) ∧
     (10 : ℝ) ^ ((3 : ℝ) / 10) < 2) := by
  refine ⟨?_, ?_, ?_, ?_, rpow_point3_bounds⟩
  · intro cfg rssi tx
    cases rssi with
    | none => simp [estimate_distance_m, spec_distance]
    | some r =>
      cases tx with
      | none => simp [estimate_distance_m, spec_distance, spec_ref_power]
      | some t => simp [estimate_distance_m, spec_distance, spec_ref_power]
  · intro cfg rssi tx
    cases rssi with
    | none => simp [estimate_distance_m]
    | some r => simp [estimate_distance_m]
  · intro cfg hn hf
    simp only [estimate_distance_m, hn, hf]
    rw [show ((((-59 : Int)) : ℚ) - (((-65 : Int)) : ℚ)) / (10 * 2) = 3 / 10
      by push_cast; ring]
  · intro q h1 h2
    rw [min_eq_left h2, max_eq_right h1]

/-- C6, witness: at the default configuration (fallback −59, `n = 2`)
with RSSI −65 and no advertised TxPower, the estimator returns the
clamped `tenPow (3/10)`. -/
theorem c6_distance_estimator_witness :
    estimate_distance_m testConfig (some (-65)) none =
      some (max (1 / 10) (min (testConfig.tenPow (3 / 10)) 100)) :=
  c6_distance_estimator.2.2.1 testConfig rfl rfl

/-! ## C7 -/

/-- Folding the `_tick` loop over entries that are stale whenever they
carry `key` neither keeps `key` nor emits an event for it. -/
theorem tick_fold_stale (cfg : BleConfig) (idBus : String) (now : ℚ)
    (key : String) :
    ∀ (l : List (String × BleSeen)) (acc : TickAcc),
      (∀ kv ∈ l, kv.1 = key →
        now - kv.2.last_seen_ts > cfg.ttl_sec + cfg.ttl_grace_sec) →
      key ∉ acc.keep.map Prod.fst →
      (∀ ev ∈ acc.events, ev.id_device ≠ key) →
      key ∉ (l.foldl (tickStep cfg idBus now) acc).keep.map Prod.fst ∧
      (∀ ev ∈ (l.foldl (tickStep cfg idBus now) acc).events,
        ev.id_device ≠ key) := by
  intro l
  induction l with
  | nil => intro acc _ h1 h2; exact ⟨h1, h2⟩
  | cons kv rest ih =>
    intro acc hstale h1 h2
    simp only [List.foldl_cons]
    by_cases hst : now - kv.2.last_seen_ts > cfg.ttl_sec + cfg.ttl_grace_sec
    · apply ih
      · intro kv2 h hk
        exact hstale kv2 (List.mem_cons_of_mem _ h) hk
      · simpa [tickStep, hst] using h1
      · intro ev hev
        apply h2
        simpa [tickStep, hst] using hev
    · have hk : kv.1 ≠ key :=
        fun hh => hst (hstale kv (List.mem_cons_self _ _) hh)
      apply ih
      · intro kv2 h hkk
        exact hstale kv2 (List.mem_cons_of_mem _ h) hkk
      · intro hmem
        have hmem2 : (∃ x, (key, x) ∈ acc.keep) ∨ key = kv.1 := by
          simpa [tickStep, hst] using hmem
        rcases hmem2 with ⟨x, hx⟩ | hkey
        · exact h1 (List.mem_map_of_mem Prod.fst hx)
        · exact hk hkey.symm
      · intro ev hev
        have hev2 : ev ∈ acc.events ++
            ((tickEmit kv.2 (presenceOf cfg kv.2)).map
              (fun fl => TickEvent.mk idBus kv.1 fl)).toList := by
          simpa [tickStep, hst] using hev
        rcases List.mem_append.mp hev2 with hp3 | hp3
        · exact h2 ev hp3
        · cases hemit : tickEmit kv.2 (presenceOf cfg kv.2) with
          | none => rw [hemit] at hp3; cases hp3
          | some fl =>
            rw [hemit] at hp3
            rcases List.mem_singleton.mp (by simpa using hp3) with rfl
            simpa using hk

/-- C7: on a tick, every tracked record whose last observation is older
than `TTL + grace` is removed from the active map, and the tick emits no
transition event for it. -/
theorem c7_ttl_eviction (cfg : BleConfig) (idBus : String) (now : ℚ)
    (st : ReceiverState) (key : String) (r : BleSeen)
    (hkeys : (st.seen.map Prod.fst).Nodup)
    (hlk : lookupA st.seen key = some r)
    (hstale : now - r.last_seen_ts > cfg.ttl_sec + cfg.ttl_grace_sec) :
    lookupA (tick cfg idBus now st).1.seen key = none ∧
    ∀ ev ∈ (tick cfg idBus now st).2.1, ev.id_device ≠ key := by
  have hall : ∀ kv ∈ st.seen, kv.1 = key →
      now - kv.2.last_seen_ts > cfg.ttl_sec + cfg.ttl_grace_sec := by
    intro kv h hk
    have hv := lookupA_mem_unique hkeys hlk kv h hk
    rw [hv]
    exact hstale
  have hmain := tick_fold_stale cfg idBus now key st.seen
    ⟨[], st.reported_flags, [], 0⟩ hall (by simp) (by simp)
  exact ⟨lookupA_eq_none hmain.1, hmain.2⟩

/-- C7, witness: at `now = 10` the record of `"X"` last seen at 0 is
older than `TTL + grace = 8.5`, and the tick drops it. -/
theorem c7_ttl_eviction_witness :
    lookupA (tick testConfig "aaa" 10 exSt1).1.seen "X" = none :=
  (c7_ttl_eviction testConfig "aaa" 10 exSt1 "X" exRec1 (by simp [exSt1])
    (by simp [exSt1, lookupA])
    (by rw [show exRec1.last_seen_ts = 0 from rfl]; norm_num [testConfig])).1

/-! ## C9 -/

/-- The subscription loop sends exactly the frames `ws_emit` assigns to
the indexed stream elements. -/
theorem ws_loop_eq_filterMap {π : Type} (mkSnap : String → Int → π)
    (idBus : String) (countAt : Nat → Int) :
    ∀ (msgs : List (Option (WsMsg π))) (i : Nat),
      ws_loop mkSnap idBus countAt i msgs =
        (msgs.enumFrom i).filterMap
          (fun p => ws_emit mkSnap idBus countAt p.1 p.2) := by
  intro msgs
  induction msgs with
  | nil => intro i; rfl
  | cons om rest ih =>
    intro i
    simp only [List.enumFrom, List.filterMap_cons]
    cases hom : ws_emit mkSnap idBus countAt i om with
    | none => simp [ws_loop, hom, ih]
    | some p => simp [ws_loop, hom, ih]

/-- C9: the subscriber first receives the snapshot of the current count,
before any update; each later frame comes from one stream element in
order; a parse failure is replaced by a snapshot carrying the count read
at that moment; a parsed payload is forwarded as-is; and only elements of
type `"message"` produce frames. -/
theorem c9_ws_snapshot_fallback {π : Type} (mkSnap : String → Int → π)
    (idBus : String) (initial : Int) (countAt : Nat → Int)
    (msgs : List (Option (WsMsg π))) :
    websocket_bus_count mkSnap idBus initial countAt msgs =
      mkSnap idBus initial ::
        (msgs.enumFrom 0).filterMap
          (fun p => ws_emit mkSnap idBus countAt p.1 p.2) ∧
    (websocket_bus_count mkSnap idBus initial countAt msgs).head? =
      some (mkSnap idBus initial) ∧
    (∀ i, ws_emit mkSnap idBus countAt i (some ⟨"message", none⟩) =
      some (mkSnap idBus (countAt i))) ∧
    (∀ (i : Nat) (p : π),
      ws_emit mkSnap idBus countAt i (some ⟨"message", some p⟩) = some p) ∧
    (∀ (i : Nat) (m : WsMsg π),
      ws_emit mkSnap idBus countAt i (some m) ≠ none →
        m.mtype = "message") := by
  refine ⟨?_, rfl, fun i => rfl, fun i p => rfl, ?_⟩
  · simp [websocket_bus_count, ws_loop_eq_filterMap]
  · intro i m hne
    by_contra hmt
    exact hne (by simp [ws_emit, hmt])

/-- C9, witness: a malformed `"message"` stream element at index 0 is
replaced by the snapshot built from the count read there. -/
theorem c9_ws_snapshot_fallback_witness :
    ws_emit (fun b c => (b, c)) "B" (fun _ => 3) 0
        (some ⟨"message", none⟩) = some ("B", 3) :=
  (c9_ws_snapshot_fallback (fun b c => (b, c)) "B" 0 (fun _ => 3)
    []).2.2.1 0

end TwoGis
